import Mathlib

/-!
Verification of the terminal snake game (`main.py`).

Positions are integer pairs `(x, y)`.  The grid is `MAP_WIDTH × MAP_HEIGHT`
with a one-cell wall border; `wrap` produces the toroidal topology on the
playable interior.  The game loop in `main` is embedded as the `tick`
function on `GameState`; the randomness of `random.randrange` is embedded
as an explicit list of draws fed to the apple-placement loop.
-/

set_option autoImplicit false

namespace Snake

/-- A cell position `(x, y)`, as in the Python `tuple[int, int]`. -/
abbrev Pos := Int × Int

/-- `Directions.UP = (0, -1)` in `main.py`. -/
def UP : Pos := (0, -1)

/-- `Directions.DOWN = (0, 1)` in `main.py`. -/
def DOWN : Pos := (0, 1)

/-- `Directions.LEFT = (-1, 0)` in `main.py`. -/
def LEFT : Pos := (-1, 0)

/-- `Directions.RIGHT = (1, 0)` in `main.py`. -/
def RIGHT : Pos := (1, 0)

/-- `d` is one of the four direction unit vectors. -/
def isDir (d : Pos) : Prop := d = UP ∨ d = DOWN ∨ d = LEFT ∨ d = RIGHT

instance (d : Pos) : Decidable (isDir d) := by
  unfold isDir; infer_instance

/-- The geometric opposite of a direction vector. -/
def opposite (d : Pos) : Pos := (-d.1, -d.2)

/-- Modelled from the spec: `main.py` imports `MAP_WIDTH` from `settings.py`,
which is not part of the sources; the spec fixes the board at 40×20. -/
def MAP_WIDTH : Int := 40

/-- Modelled from the spec: `main.py` imports `MAP_HEIGHT` from `settings.py`,
which is not part of the sources; the spec fixes the board at 40×20. -/
def MAP_HEIGHT : Int := 20

/-- `wrap` from `main.py`:
`if pos <= 0: return bound - 2 elif pos >= bound - 1: return 1 else: return pos`. -/
def wrap (pos bound : Int) : Int :=
  if pos ≤ 0 then bound - 2
  else if pos ≥ bound - 1 then 1
  else pos

/-- The candidate head computation of `update_snake`: the direction vector is
added to a position and each coordinate is wrapped against its bound. -/
def move (W H : Int) (p d : Pos) : Pos :=
  (wrap (p.1 + d.1) W, wrap (p.2 + d.2) H)

/-- A position in the playable interior, excluding the one-cell wall border:
this is exactly the range of `get_random_pos`, since Python's
`random.randrange(1, bound - 1)` draws from `[1, bound - 2]`. -/
def interior (W H : Int) (p : Pos) : Prop :=
  1 ≤ p.1 ∧ p.1 ≤ W - 2 ∧ 1 ≤ p.2 ∧ p.2 ≤ H - 2

instance (W H : Int) (p : Pos) : Decidable (interior W H p) := by
  unfold interior; infer_instance

/-- `change_direction` from `main.py`: an `elif` chain over the pressed key,
each branch guarded by the no-reversal test, defaulting to the current
direction. -/
def changeDirection (currentDir : Pos) (key : String) : Pos :=
  if key = "w" ∧ currentDir ≠ DOWN then UP
  else if key = "s" ∧ currentDir ≠ UP then DOWN
  else if key = "a" ∧ currentDir ≠ RIGHT then LEFT
  else if key = "d" ∧ currentDir ≠ LEFT then RIGHT
  else currentDir

/-- The direction requested by a movement key (`w`/`s`/`a`/`d`); other keys
request nothing and are given a junk value. -/
def keyDir (key : String) : Pos :=
  if key = "w" then UP
  else if key = "s" then DOWN
  else if key = "a" then LEFT
  else if key = "d" then RIGHT
  else (0, 0)

/-- `update_snake` from `main.py`, acting on the snake deque and the body set
together: push the wrapped candidate head to the front, add the old head
(`snake[1]` after the `appendleft`) to the body set, and unless an apple was
eaten pop the tail and remove it from the body set.  The empty-snake case
(an `IndexError` in Python) returns the state unchanged and is never
reached. -/
def updateSnakePair (W H : Int) (snake : List Pos) (bodySet : Finset Pos)
    (direction : Pos) (ateApple : Bool) : List Pos × Finset Pos :=
  match snake with
  | [] => ([], bodySet)
  | h :: rest =>
    let newHead := move W H h direction
    let b1 := insert h bodySet
    if ateApple then (newHead :: h :: rest, b1)
    else ((newHead :: h :: rest).dropLast, b1.erase ((h :: rest).getLastD newHead))

/-- The retry loop of `get_apple_pos` from `main.py`, with the stream of
`get_random_pos` results made explicit as a list of draws:
`while new_pos != snake_head and new_pos in snake_body_set:` redraws, and the
first draw failing that condition is returned.  `none` models running out of
draws (the Python loop would keep drawing). -/
def applePos (draws : List Pos) (snakeHead : Pos) (snakeBodySet : Finset Pos) :
    Option Pos :=
  match draws with
  | [] => none
  | d :: rest => if d ≠ snakeHead ∧ d ∈ snakeBodySet then applePos rest snakeHead snakeBodySet
                 else some d

/-- The per-tick outcome tag of the spec. -/
inductive Outcome where
  | Continued
  | Ate
  | Terminated
deriving DecidableEq

/-- The state owned by `main`'s loop: the snake deque, the body set, the
apple, the `ate_apple` flag, the score, and the current direction. -/
structure GameState where
  snake : List Pos
  bodySet : Finset Pos
  apple : Pos
  ateApple : Bool
  score : Int
  dir : Pos
deriving DecidableEq

/-- Direction resolution at the top of a loop iteration: a pressed movement
key goes through `change_direction`; on a timeout the direction is kept.
(The `q` key exits the program before the transition and is out of scope.) -/
def resolveDir (d : Pos) (key : Option String) : Pos :=
  match key with
  | none => d
  | some k => changeDirection d k

/-- One iteration of `main`'s `while True` loop, after input collection:
resolve the direction, call `update_snake` (with the `ate_apple` flag left
over from the previous iteration), clear the flag, then if the new head is on
the apple re-place the apple, set the flag and increment the score, and
finally test the new head against the body set (the program exits there on a
hit, tagged `Terminated`).  `draws` feeds `get_apple_pos` when it is called;
an exhausted draw list yields a junk apple. -/
def tick (W H : Int) (g : GameState) (key : Option String) (draws : List Pos) :
    GameState × Outcome :=
  let dir' := resolveDir g.dir key
  let sb := updateSnakePair W H g.snake g.bodySet dir' g.ateApple
  let h' := sb.1.headD (0, 0)
  if h' = g.apple then
    ({ snake := sb.1, bodySet := sb.2,
       apple := (applePos draws h' sb.2).getD (0, 0),
       ateApple := true, score := g.score + 1, dir := dir' },
     if h' ∈ sb.2 then Outcome.Terminated else Outcome.Ate)
  else
    ({ snake := sb.1, bodySet := sb.2, apple := g.apple,
       ateApple := false, score := g.score, dir := dir' },
     if h' ∈ sb.2 then Outcome.Terminated else Outcome.Continued)

/-- The initial state built at the top of `main`: a length-3 horizontal snake
centred vertically, body set `set(snake[1:])`, direction `RIGHT`, score 0,
`ate_apple = False`; the initial apple comes from `get_apple_pos` and is kept
abstract here. -/
def initState (apple : Pos) : GameState :=
  { snake := [(5, MAP_HEIGHT / 2), (4, MAP_HEIGHT / 2), (3, MAP_HEIGHT / 2)]
    bodySet := ([(5, MAP_HEIGHT / 2), (4, MAP_HEIGHT / 2), (3, MAP_HEIGHT / 2)] :
        List Pos).tail.toFinset
    apple := apple
    ateApple := false
    score := 0
    dir := RIGHT }

/-- The states `main`'s loop can reach at the top of an iteration: the initial
state (with any apple), and the successor of a reachable state whose tick did
not terminate the game. -/
inductive Reachable : GameState → Prop where
  | init (a : Pos) : Reachable (initState a)
  | step (g : GameState) (key : Option String) (draws : List Pos) :
      Reachable g → (tick MAP_WIDTH MAP_HEIGHT g key draws).2 ≠ Outcome.Terminated →
      Reachable (tick MAP_WIDTH MAP_HEIGHT g key draws).1

/-- Folding `tick` over a list of per-iteration inputs, returning the final
state. -/
def ticks (W H : Int) : GameState → List (Option String × List Pos) → GameState
  | g, [] => g
  | g, (k, d) :: rest => ticks W H (tick W H g k d).1 rest

/-- The outcomes of a run of `tick` over a list of per-iteration inputs. -/
def tickTrace (W H : Int) : GameState → List (Option String × List Pos) → List Outcome
  | _, [] => []
  | g, (k, d) :: rest => (tick W H g k d).2 :: tickTrace W H (tick W H g k d).1 rest

/-- A loop state with a length-6 snake curled so that turning DOWN (`s`) runs
the head into the body: the state reached from the initial state by the
8-tick run eating apples at `(6,10)`, `(8,10)`, `(10,10)` and then turning
up and left. -/
def curledState : GameState :=
  { snake := [(10, 9), (11, 9), (11, 10), (10, 10), (9, 10), (8, 10)]
    bodySet := ([(11, 9), (11, 10), (10, 10), (9, 10), (8, 10)] : List Pos).toFinset
    apple := (30, 5)
    ateApple := false
    score := 3
    dir := LEFT }

/-! ### Helper lemmas -/

lemma changeDirection_isDir (cur : Pos) (k : String) (h : isDir cur) :
    isDir (changeDirection cur k) := by
  rcases h with rfl | rfl | rfl | rfl <;>
    · unfold changeDirection
      split_ifs <;> simp [isDir]

lemma changeDirection_ne_opposite (cur : Pos) (k : String) (h : isDir cur) :
    changeDirection cur k ≠ opposite cur := by
  rcases h with rfl | rfl | rfl | rfl <;>
    · unfold changeDirection
      split_ifs <;> simp_all [isDir, opposite, UP, DOWN, LEFT, RIGHT]

lemma isDir_ne_opposite (d : Pos) (h : isDir d) : d ≠ opposite d := by
  rcases h with rfl | rfl | rfl | rfl <;> decide

lemma resolveDir_isDir (d : Pos) (k : Option String) (h : isDir d) :
    isDir (resolveDir d k) := by
  cases k with
  | none => exact h
  | some s => exact changeDirection_isDir d s h

lemma resolveDir_ne_opposite (d : Pos) (k : Option String) (h : isDir d) :
    resolveDir d k ≠ opposite d := by
  cases k with
  | none => exact isDir_ne_opposite d h
  | some s => exact changeDirection_ne_opposite d s h

lemma applePos_interior (W H : Int) (draws : List Pos) (hd : Pos) (b : Finset Pos)
    (p : Pos) (hdraws : ∀ q ∈ draws, interior W H q)
    (hp : applePos draws hd b = some p) : interior W H p := by
  induction draws with
  | nil => simp [applePos] at hp
  | cons d rest ih =>
    rw [applePos] at hp
    split_ifs at hp with hcond
    · exact ih (fun q hq => hdraws q (List.mem_cons_of_mem d hq)) hp
    · simp only [Option.some.injEq] at hp
      exact hp ▸ hdraws d (by simp)

lemma move_interior (W H : Int) (hW : 5 ≤ W) (hH : 5 ≤ H) (d : Pos) (hd : isDir d)
    (p : Pos) (hp : interior W H p) : interior W H (move W H p d) := by
  obtain ⟨x, y⟩ := p
  obtain ⟨hx1, hx2, hy1, hy2⟩ := hp
  rcases hd with rfl | rfl | rfl | rfl <;>
    · simp only [interior, move, wrap, UP, DOWN, LEFT, RIGHT] at *
      split_ifs <;> omega

lemma move_ne (W H : Int) (hW : 5 ≤ W) (hH : 5 ≤ H) (d : Pos) (hd : isDir d)
    (p : Pos) (hp : interior W H p) : move W H p d ≠ p := by
  obtain ⟨x, y⟩ := p
  obtain ⟨hx1, hx2, hy1, hy2⟩ := hp
  rcases hd with rfl | rfl | rfl | rfl <;>
    · simp only [interior, move, wrap, UP, DOWN, LEFT, RIGHT, ne_eq, Prod.mk.injEq] at *
      split_ifs <;> omega

lemma wrap_wrap_ne (b x e₁ e₂ : Int) (hb : 5 ≤ b) (hx1 : 1 ≤ x) (hx2 : x ≤ b - 2)
    (he₁ : e₁ = 1 ∨ e₁ = -1 ∨ e₁ = 0) (he₂ : e₂ = 1 ∨ e₂ = -1 ∨ e₂ = 0)
    (hnz : e₁ ≠ 0 ∨ e₂ ≠ 0) (hrev : e₁ + e₂ ≠ 0 ∨ e₁ = 0) :
    wrap (wrap (x + e₁) b + e₂) b ≠ x := by
  unfold wrap
  split_ifs <;> omega

lemma move_move_ne (W H : Int) (hW : 5 ≤ W) (hH : 5 ≤ H) (d₀ r : Pos)
    (hd₀ : isDir d₀) (hr : isDir r) (hno : r ≠ opposite d₀)
    (p : Pos) (hp : interior W H p) : move W H (move W H p d₀) r ≠ p := by
  obtain ⟨x, y⟩ := p
  obtain ⟨hx1, hx2, hy1, hy2⟩ := hp
  rcases hd₀ with rfl | rfl | rfl | rfl <;> rcases hr with rfl | rfl | rfl | rfl
  -- d₀ = UP
  · exact fun h => wrap_wrap_ne H y (-1) (-1) hH hy1 hy2 (by omega) (by omega)
      (by omega) (by omega) (congrArg Prod.snd h)
  · exact absurd (by decide) hno
  · exact fun h => wrap_wrap_ne H y (-1) 0 hH hy1 hy2 (by omega) (by omega)
      (by omega) (by omega) (congrArg Prod.snd h)
  · exact fun h => wrap_wrap_ne H y (-1) 0 hH hy1 hy2 (by omega) (by omega)
      (by omega) (by omega) (congrArg Prod.snd h)
  -- d₀ = DOWN
  · exact absurd (by decide) hno
  · exact fun h => wrap_wrap_ne H y 1 1 hH hy1 hy2 (by omega) (by omega)
      (by omega) (by omega) (congrArg Prod.snd h)
  · exact fun h => wrap_wrap_ne H y 1 0 hH hy1 hy2 (by omega) (by omega)
      (by omega) (by omega) (congrArg Prod.snd h)
  · exact fun h => wrap_wrap_ne H y 1 0 hH hy1 hy2 (by omega) (by omega)
      (by omega) (by omega) (congrArg Prod.snd h)
  -- d₀ = LEFT
  · exact fun h => wrap_wrap_ne W x (-1) 0 hW hx1 hx2 (by omega) (by omega)
      (by omega) (by omega) (congrArg Prod.fst h)
  · exact fun h => wrap_wrap_ne W x (-1) 0 hW hx1 hx2 (by omega) (by omega)
      (by omega) (by omega) (congrArg Prod.fst h)
  · exact fun h => wrap_wrap_ne W x (-1) (-1) hW hx1 hx2 (by omega) (by omega)
      (by omega) (by omega) (congrArg Prod.fst h)
  · exact absurd (by decide) hno
  -- d₀ = RIGHT
  · exact fun h => wrap_wrap_ne W x 1 0 hW hx1 hx2 (by omega) (by omega)
      (by omega) (by omega) (congrArg Prod.fst h)
  · exact fun h => wrap_wrap_ne W x 1 0 hW hx1 hx2 (by omega) (by omega)
      (by omega) (by omega) (congrArg Prod.fst h)
  · exact absurd (by decide) hno
  · exact fun h => wrap_wrap_ne W x 1 1 hW hx1 hx2 (by omega) (by omega)
      (by omega) (by omega) (congrArg Prod.fst h)

lemma toFinset_erase_getLastD (l : List Pos) (d : Pos) (hne : l ≠ []) (hnd : l.Nodup) :
    l.toFinset.erase (l.getLastD d) = l.dropLast.toFinset := by
  rcases List.eq_nil_or_concat l with rfl | ⟨l', a, rfl⟩
  · exact absurd rfl hne
  · simp only [List.concat_eq_append] at hnd ⊢
    have ha : a ∉ l' := by
      rw [List.nodup_append] at hnd
      intro hmem
      exact hnd.2.2 hmem (by simp)
    rw [List.getLastD_concat, List.dropLast_concat]
    ext x
    simp only [List.toFinset_append, Finset.mem_erase, Finset.mem_union,
      List.mem_toFinset, List.toFinset_cons, List.toFinset_nil, Finset.mem_insert,
      Finset.not_mem_empty, or_false]
    constructor
    · rintro ⟨hxa, hx | rfl⟩
      · exact hx
      · exact absurd rfl hxa
    · intro hx
      exact ⟨fun h => ha (h ▸ hx), Or.inl hx⟩

lemma updateSnakePair_true (W H : Int) (h : Pos) (rest : List Pos) (bodySet : Finset Pos)
    (dir : Pos) :
    updateSnakePair W H (h :: rest) bodySet dir true =
      (move W H h dir :: h :: rest, insert h bodySet) := rfl

lemma updateSnakePair_false (W H : Int) (h : Pos) (rest : List Pos) (bodySet : Finset Pos)
    (dir : Pos) :
    updateSnakePair W H (h :: rest) bodySet dir false =
      ((move W H h dir :: h :: rest).dropLast,
       (insert h bodySet).erase ((h :: rest).getLastD (move W H h dir))) := rfl

lemma tick_snake (W H : Int) (g : GameState) (key : Option String) (draws : List Pos) :
    (tick W H g key draws).1.snake =
      (updateSnakePair W H g.snake g.bodySet (resolveDir g.dir key) g.ateApple).1 := by
  simp only [tick]
  split_ifs <;> rfl

lemma tick_bodySet (W H : Int) (g : GameState) (key : Option String) (draws : List Pos) :
    (tick W H g key draws).1.bodySet =
      (updateSnakePair W H g.snake g.bodySet (resolveDir g.dir key) g.ateApple).2 := by
  simp only [tick]
  split_ifs <;> rfl

lemma tick_dir (W H : Int) (g : GameState) (key : Option String) (draws : List Pos) :
    (tick W H g key draws).1.dir = resolveDir g.dir key := by
  simp only [tick]
  split_ifs <;> rfl

lemma tick_score (W H : Int) (g : GameState) (key : Option String) (draws : List Pos) :
    (tick W H g key draws).1.score =
      (if (updateSnakePair W H g.snake g.bodySet (resolveDir g.dir key) g.ateApple).1.headD
            (0, 0) = g.apple
       then g.score + 1 else g.score) := by
  simp only [tick]
  split_ifs <;> rfl

lemma tick_terminated_iff (W H : Int) (g : GameState) (key : Option String)
    (draws : List Pos) :
    (tick W H g key draws).2 = Outcome.Terminated ↔
      (updateSnakePair W H g.snake g.bodySet (resolveDir g.dir key) g.ateApple).1.headD
          (0, 0) ∈
        (updateSnakePair W H g.snake g.bodySet (resolveDir g.dir key) g.ateApple).2 := by
  simp only [tick]
  split_ifs with h1 h2 h2 <;> simp_all

lemma tick_ate_iff (W H : Int) (g : GameState) (key : Option String) (draws : List Pos) :
    (tick W H g key draws).2 = Outcome.Ate ↔
      ((updateSnakePair W H g.snake g.bodySet (resolveDir g.dir key) g.ateApple).1.headD
          (0, 0) = g.apple ∧
       (updateSnakePair W H g.snake g.bodySet (resolveDir g.dir key) g.ateApple).1.headD
          (0, 0) ∉
        (updateSnakePair W H g.snake g.bodySet (resolveDir g.dir key) g.ateApple).2) := by
  simp only [tick]
  split_ifs with h1 h2 h2 <;> simp_all

/-- The standing invariant of `main`'s loop state: the snake has length at
least 3 and no duplicate cells, the body set mirrors `snake[1:]`, the stored
direction is a unit vector consistent with the last move (the head equals the
neck moved by the stored direction), and the two leading cells are in the
playable interior. -/
def Inv (W H : Int) (g : GameState) : Prop :=
  ∃ h₁ h₂ t, g.snake = h₁ :: h₂ :: t ∧ t ≠ [] ∧
    g.snake.Nodup ∧
    g.bodySet = g.snake.tail.toFinset ∧
    isDir g.dir ∧
    interior W H h₁ ∧ interior W H h₂ ∧
    h₁ = move W H h₂ g.dir

/-- Structure of one `update_snake` call from an invariant state: the new
snake is the candidate head consed onto a tail whose first two cells are the
old head and old neck, and the body set tracks exactly that tail. -/
lemma upd_struct (W H : Int) (g : GameState) (key : Option String)
    (hInv : Inv W H g) :
    ∃ h₁ h₂ t',
      g.snake.headD (0, 0) = h₁ ∧
      (updateSnakePair W H g.snake g.bodySet (resolveDir g.dir key) g.ateApple).1 =
        move W H h₁ (resolveDir g.dir key) :: h₁ :: h₂ :: t' ∧
      (updateSnakePair W H g.snake g.bodySet (resolveDir g.dir key) g.ateApple).2 =
        (h₁ :: h₂ :: t').toFinset ∧
      (h₁ :: h₂ :: t').Nodup ∧
      interior W H h₁ ∧ interior W H h₂ ∧
      h₁ = move W H h₂ g.dir := by
  obtain ⟨h₁, h₂, t, hsnake, htne, hnd, hbody, hdir, hi1, hi2, hmove⟩ := hInv
  obtain ⟨c, t₀, rfl⟩ := List.exists_cons_of_ne_nil htne
  rw [hsnake] at hnd hbody ⊢
  simp only [List.tail_cons] at hbody
  cases hate : g.ateApple
  · refine ⟨h₁, h₂, (c :: t₀).dropLast, rfl, ?_, ?_, ?_, hi1, hi2, hmove⟩
    · simp [updateSnakePair_false, List.dropLast_cons₂]
    · rw [updateSnakePair_false, hbody]
      have hins : insert h₁ ((h₂ :: c :: t₀).toFinset) = (h₁ :: h₂ :: c :: t₀).toFinset := by
        simp
      rw [hins, toFinset_erase_getLastD _ _ (by simp) hnd]
      simp [List.dropLast_cons₂]
    · have hsub : (h₁ :: h₂ :: (c :: t₀).dropLast) = (h₁ :: h₂ :: c :: t₀).dropLast := by
        rw [List.dropLast_cons₂, List.dropLast_cons₂]
      rw [hsub]
      exact hnd.sublist (List.dropLast_sublist _)
  · refine ⟨h₁, h₂, c :: t₀, rfl, ?_, ?_, hnd, hi1, hi2, hmove⟩
    · rw [updateSnakePair_true]
    · rw [updateSnakePair_true, hbody]
      simp

lemma inv_step (W H : Int) (hW : 5 ≤ W) (hH : 5 ≤ H) (g : GameState) (key : Option String)
    (draws : List Pos) (hInv : Inv W H g)
    (hnt : (tick W H g key draws).2 ≠ Outcome.Terminated) :
    Inv W H (tick W H g key draws).1 := by
  obtain ⟨h₁, h₂, t', hhead, hs, hb, hnd, hi1, hi2, hmv⟩ := upd_struct W H g key hInv
  obtain ⟨a₁, a₂, at', -, -, -, -, hdir, -, -, -⟩ := hInv
  have hdir' : isDir (resolveDir g.dir key) := resolveDir_isDir g.dir key hdir
  have hnopp : resolveDir g.dir key ≠ opposite g.dir := resolveDir_ne_opposite g.dir key hdir
  have hne2 : move W H h₁ (resolveDir g.dir key) ≠ h₂ :=
    hmv.symm ▸ move_move_ne W H hW hH g.dir (resolveDir g.dir key) hdir hdir' hnopp h₂ hi2
  have hnmem : move W H h₁ (resolveDir g.dir key) ∉ (h₁ :: h₂ :: t') := by
    intro hmem
    apply hnt
    rw [tick_terminated_iff, hs, hb]
    simpa using hmem
  refine ⟨move W H h₁ (resolveDir g.dir key), h₁, h₂ :: t', ?_, by simp, ?_, ?_, ?_, ?_, ?_, ?_⟩
  · rw [tick_snake, hs]
  · rw [tick_snake, hs]
    exact List.nodup_cons.mpr ⟨hnmem, hnd⟩
  · rw [tick_bodySet, tick_snake, hs, hb]
    rfl
  · rw [tick_dir]
    exact hdir'
  · exact move_interior W H hW hH _ hdir' h₁ hi1
  · exact hi1
  · rw [tick_dir]

lemma reachable_inv (g : GameState) (h : Reachable g) : Inv MAP_WIDTH MAP_HEIGHT g := by
  induction h with
  | init a =>
    have hsn : (initState a).snake = [(5, 10), (4, 10), (3, 10)] := rfl
    have hbs : (initState a).bodySet = ([(4, 10), (3, 10)] : List Pos).toFinset := rfl
    have hdr : (initState a).dir = RIGHT := rfl
    refine ⟨(5, 10), (4, 10), [(3, 10)], hsn, by simp, ?_, ?_, ?_, by decide, by decide, ?_⟩
    · rw [hsn]; decide
    · rw [hbs, hsn]; decide
    · rw [hdr]; decide
    · rw [hdr]; decide
  | step g k d hr hnt ih =>
    exact inv_step MAP_WIDTH MAP_HEIGHT (by decide) (by decide) g k d ih hnt

lemma upd_bodySet_subset (W H : Int) (snake : List Pos) (bodySet : Finset Pos)
    (direction : Pos) (ate : Bool) (h₁ : Pos) (rest : List Pos)
    (hsnake : snake = h₁ :: rest) :
    (updateSnakePair W H snake bodySet direction ate).2 ⊆ insert h₁ bodySet := by
  subst hsnake
  cases ate
  · rw [updateSnakePair_false]
    exact Finset.erase_subset _ _
  · rw [updateSnakePair_true]

/-! ### Claim theorems -/

/-- C1: the claim says every position returned by `get_apple_pos` is distinct
from the snake head and from every body cell.  The retry condition in the
source is `new_pos != snake_head and new_pos in snake_body_set`, so a draw
equal to the snake head falsifies the condition immediately and the head
itself is returned — contradicting the claim and the function's own
docstring ("a position … which is not inside the snake").  Evaluated at the
initial snake: head `(5, 10)`, body `{(4, 10), (3, 10)}`, first random draw
`(5, 10)`: the apple is placed exactly on the head. -/
theorem c1_apple_placed_on_head :
    applePos [(5, 10)] (5, 10) ({(4, 10), (3, 10)} : Finset Pos) = some (5, 10) := by
  decide

/-- C5: for every bound `b ≥ 4`, `wrap 0 b = b - 2` and `wrap (b-1) b = 1`,
and every position `1 ≤ p ≤ b - 2` passes through unchanged; `wrap` is a
pure total function over the integers by construction. -/
theorem c5_wrap_spec (b p : Int) (hb : 4 ≤ b) :
    wrap 0 b = b - 2 ∧ wrap (b - 1) b = 1 ∧ (1 ≤ p → p ≤ b - 2 → wrap p b = p) := by
  unfold wrap
  refine ⟨by split_ifs <;> omega, by split_ifs <;> omega, fun h1 h2 => by split_ifs <;> omega⟩

/-- Witness for C5 at `b = 40`, `p = 7`. -/
theorem c5_wrap_spec_witness :
    wrap 0 40 = 40 - 2 ∧ wrap (40 - 1) 40 = 1 ∧ wrap 7 40 = 7 := by
  obtain ⟨h1, h2, h3⟩ := c5_wrap_spec 40 7 (by norm_num)
  exact ⟨h1, h2, h3 (by norm_num) (by norm_num)⟩

/-- C8: every position returned by apple placement lies in the playable
interior `[1, W-2] × [1, H-2]`.  The draws hypothesis is the range guarantee
of `get_random_pos`: Python's `random.randrange(1, bound - 1)` only produces
values in `[1, bound - 2]`. -/
theorem c8_apple_in_interior (W H : Int) (draws : List Pos) (snakeHead : Pos)
    (snakeBodySet : Finset Pos) (p : Pos)
    (hdraws : ∀ q ∈ draws, interior W H q)
    (hp : applePos draws snakeHead snakeBodySet = some p) :
    1 ≤ p.1 ∧ p.1 ≤ W - 2 ∧ 1 ≤ p.2 ∧ p.2 ≤ H - 2 :=
  applePos_interior W H draws snakeHead snakeBodySet p hdraws hp

/-- Witness for C8: a draw sequence on the 40×20 board. -/
theorem c8_apple_in_interior_witness :
    1 ≤ ((7, 9) : Pos).1 ∧ ((7, 9) : Pos).1 ≤ 40 - 2 ∧
    1 ≤ ((7, 9) : Pos).2 ∧ ((7, 9) : Pos).2 ≤ 20 - 2 :=
  c8_apple_in_interior 40 20 [(7, 9)] (5, 10) ∅ (7, 9) (by decide) (by decide)

/-- C6: for every current heading and every movement key, a requested
direction equal to the geometric opposite of the heading leaves the heading
unchanged (the reversal is silently ignored), and any other requested
direction becomes the new heading. -/
theorem c6_reversal_ignored (currentDir : Pos) (k : String) (hcur : isDir currentDir)
    (hk : k = "w" ∨ k = "s" ∨ k = "a" ∨ k = "d") :
    (keyDir k = opposite currentDir → changeDirection currentDir k = currentDir) ∧
    (keyDir k ≠ opposite currentDir → changeDirection currentDir k = keyDir k) := by
  rcases hcur with rfl | rfl | rfl | rfl <;> rcases hk with rfl | rfl | rfl | rfl <;>
    exact ⟨by decide, by decide⟩

/-- Witness for C6: requesting DOWN (`s`) while heading UP is ignored. -/
theorem c6_reversal_ignored_witness :
    (keyDir "s" = opposite UP → changeDirection UP "s" = UP) ∧
    (keyDir "s" ≠ opposite UP → changeDirection UP "s" = keyDir "s") :=
  c6_reversal_ignored UP "s" (by decide) (by decide)

/-- C10: `change_direction` returns the current direction unchanged for any
key other than `w`/`s`/`a`/`d` and for a key whose move is blocked as a
reversal, and its result is always one of the four unit vectors whenever the
current direction is one of them. -/
theorem c10_non_movement_keys (currentDir : Pos) (k : String) (hcur : isDir currentDir) :
    (k ≠ "w" → k ≠ "s" → k ≠ "a" → k ≠ "d" → changeDirection currentDir k = currentDir) ∧
    (keyDir k = opposite currentDir → changeDirection currentDir k = currentDir) ∧
    isDir (changeDirection currentDir k) := by
  refine ⟨?_, ?_, changeDirection_isDir currentDir k hcur⟩
  · intro h1 h2 h3 h4
    unfold changeDirection
    rw [if_neg (fun hc => h1 hc.1), if_neg (fun hc => h2 hc.1), if_neg (fun hc => h3 hc.1),
      if_neg (fun hc => h4 hc.1)]
  · intro hop
    by_cases hw : k = "w"
    · subst hw
      rcases hcur with rfl | rfl | rfl | rfl <;> revert hop <;> decide
    · by_cases hs : k = "s"
      · subst hs
        rcases hcur with rfl | rfl | rfl | rfl <;> revert hop <;> decide
      · by_cases ha : k = "a"
        · subst ha
          rcases hcur with rfl | rfl | rfl | rfl <;> revert hop <;> decide
        · by_cases hd : k = "d"
          · subst hd
            rcases hcur with rfl | rfl | rfl | rfl <;> revert hop <;> decide
          · rcases hcur with rfl | rfl | rfl | rfl <;>
              simp [keyDir, hw, hs, ha, hd, opposite, Prod.ext_iff,
                UP, DOWN, LEFT, RIGHT] at hop

/-- Witness for C10: the key `x` while heading UP. -/
theorem c10_non_movement_keys_witness :
    (("x" : String) ≠ "w" → ("x" : String) ≠ "s" → ("x" : String) ≠ "a" →
      ("x" : String) ≠ "d" → changeDirection UP "x" = UP) ∧
    (keyDir "x" = opposite UP → changeDirection UP "x" = UP) ∧
    isDir (changeDirection UP "x") :=
  c10_non_movement_keys UP "x" (by decide)

/-- C9: if before a call to `update_snake` the body set equals the set of all
snake cells except the head (`snake[1:]`) and the snake cells are pairwise
distinct, then after the call the body set again equals the set of all cells
of the new snake except its new head, in both the growth and the non-growth
case. -/
theorem c9_bodyset_tracks_tail (W H : Int) (snake : List Pos) (snakeBodySet : Finset Pos)
    (direction : Pos) (ate : Bool) (h₁ : Pos) (rest : List Pos)
    (hsnake : snake = h₁ :: rest) (hnd : snake.Nodup)
    (hbody : snakeBodySet = snake.tail.toFinset) :
    (updateSnakePair W H snake snakeBodySet direction ate).2 =
      (updateSnakePair W H snake snakeBodySet direction ate).1.tail.toFinset := by
  subst hsnake
  simp only [List.tail_cons] at hbody
  cases ate
  · rw [updateSnakePair_false, hbody]
    have hins : insert h₁ (rest.toFinset) = (h₁ :: rest).toFinset := by simp
    rw [hins, toFinset_erase_getLastD _ _ (by simp) hnd]
    cases rest with
    | nil => simp
    | cons b m => simp [List.dropLast_cons₂]
  · rw [updateSnakePair_true, hbody]
    simp

/-- Witness for C9 at a concrete length-2 snake, non-growth call. -/
theorem c9_bodyset_tracks_tail_witness :
    (updateSnakePair 40 20 [(5, 10), (4, 10)] {(4, 10)} RIGHT false).2 =
      (updateSnakePair 40 20 [(5, 10), (4, 10)] {(4, 10)} RIGHT false).1.tail.toFinset :=
  c9_bodyset_tracks_tail 40 20 [(5, 10), (4, 10)] {(4, 10)} RIGHT false (5, 10) [(4, 10)]
    rfl (by decide) (by decide)

/-- C2, counterexample: the claim's scenario says that from the initial snake
`[(5,10),(4,10),(3,10)]` heading RIGHT with the apple at `(6,10)`, one tick
yields the snake `[(6,10),(5,10),(4,10),(3,10)]`.  In `main`, `update_snake`
is called with the `ate_apple` flag of the *previous* iteration, so the tick
that reaches the apple still pops the tail: the snake after that tick is
`[(6,10),(5,10),(4,10)]`. -/
theorem c2_scenario_counterexample :
    (tick MAP_WIDTH MAP_HEIGHT (initState (6, 10)) none [(20, 5)]).1.snake ≠
      [(6, 10), (5, 10), (4, 10), (3, 10)] := by
  decide

/-- C2, amended: a tick grows the snake by exactly 1 iff `update_snake` is
called with the `ate_apple` flag set, which happens on the tick *after* the
candidate head reached the apple; the tick that reaches the apple leaves the
length unchanged and increments the score, and the following tick has length
+1.  In the claim's scenario the tick yields `[(6,10),(5,10),(4,10)]` with
score 1 and outcome Ate, and the next tick has length 4. -/
theorem c2_growth_on_flagged_tick :
    (∀ (W H : Int) (snake : List Pos) (snakeBodySet : Finset Pos) (direction : Pos)
       (h₁ : Pos) (rest : List Pos), snake = h₁ :: rest →
       (updateSnakePair W H snake snakeBodySet direction true).1.length = snake.length + 1 ∧
       (updateSnakePair W H snake snakeBodySet direction false).1.length = snake.length) ∧
    (tick MAP_WIDTH MAP_HEIGHT (initState (6, 10)) none [(20, 5)]).1.snake =
      [(6, 10), (5, 10), (4, 10)] ∧
    (tick MAP_WIDTH MAP_HEIGHT (initState (6, 10)) none [(20, 5)]).1.score = 1 ∧
    (tick MAP_WIDTH MAP_HEIGHT (initState (6, 10)) none [(20, 5)]).2 = Outcome.Ate ∧
    (tick MAP_WIDTH MAP_HEIGHT
        (tick MAP_WIDTH MAP_HEIGHT (initState (6, 10)) none [(20, 5)]).1 none []).1.snake =
      [(7, 10), (6, 10), (5, 10), (4, 10)] := by
  refine ⟨?_, by decide, by decide, by decide, by decide⟩
  intro W H snake snakeBodySet direction h₁ rest hsnake
  subst hsnake
  constructor
  · rw [updateSnakePair_true]
    simp
  · rw [updateSnakePair_false]
    simp

/-- Witness for C2's amended length rule at a concrete length-1 snake. -/
theorem c2_growth_on_flagged_tick_witness :
    (updateSnakePair 40 20 [((5 : Int), (10 : Int))] ∅ RIGHT true).1.length = 1 + 1 ∧
    (updateSnakePair 40 20 [((5 : Int), (10 : Int))] ∅ RIGHT false).1.length = 1 := by
  have h := c2_growth_on_flagged_tick.1 40 20 [(5, 10)] ∅ RIGHT (5, 10) [] rfl
  simpa using h

/-- C3, counterexample: an actual run of `main`'s loop from the initial state
(apple at `(6,10)`, then draws `(8,10)`, `(10,10)`, `(30,5)`) eats three
apples, turns up and left, and on its ninth tick turns DOWN into its own
body.  No earlier tick terminates; the terminating tick leaves the snake
*mutated* (head pushed, tail popped) — not equal to its pre-tick value, as
the claim asserts. -/
theorem c3_snake_mutated_counterexample :
    Outcome.Terminated ∉
        tickTrace MAP_WIDTH MAP_HEIGHT (initState (6, 10))
          [(none, [(8, 10)]), (none, []), (none, [(10, 10)]), (none, []),
           (none, [(30, 5)]), (none, []), (some "w", []), (some "a", [])] ∧
    (tick MAP_WIDTH MAP_HEIGHT
        (ticks MAP_WIDTH MAP_HEIGHT (initState (6, 10))
          [(none, [(8, 10)]), (none, []), (none, [(10, 10)]), (none, []),
           (none, [(30, 5)]), (none, []), (some "w", []), (some "a", [])])
        (some "s") []).2 = Outcome.Terminated ∧
    (tick MAP_WIDTH MAP_HEIGHT
        (ticks MAP_WIDTH MAP_HEIGHT (initState (6, 10))
          [(none, [(8, 10)]), (none, []), (none, [(10, 10)]), (none, []),
           (none, [(30, 5)]), (none, []), (some "w", []), (some "a", [])])
        (some "s") []).1.snake ≠
      (ticks MAP_WIDTH MAP_HEIGHT (initState (6, 10))
          [(none, [(8, 10)]), (none, []), (none, [(10, 10)]), (none, []),
           (none, [(30, 5)]), (none, []), (some "w", []), (some "a", [])]).snake := by
  decide

/-- C3, amended: on a tick whose outcome is Terminated the score is preserved
(given the standing invariant that the apple is disjoint from the snake), but
the snake has already been advanced by `update_snake` before the collision is
detected: the post-tick snake is the moved snake, not the pre-tick snake. -/
theorem c3_terminating_tick_effects (W H : Int) (g : GameState) (key : Option String)
    (draws : List Pos) (h₁ : Pos) (rest : List Pos)
    (hsnake : g.snake = h₁ :: rest)
    (happle₁ : g.apple ∉ g.bodySet) (happle₂ : g.apple ≠ h₁)
    (hterm : (tick W H g key draws).2 = Outcome.Terminated) :
    (tick W H g key draws).1.score = g.score ∧
    (tick W H g key draws).1.snake =
      (updateSnakePair W H g.snake g.bodySet (resolveDir g.dir key) g.ateApple).1 := by
  refine ⟨?_, tick_snake W H g key draws⟩
  have hmem := (tick_terminated_iff W H g key draws).mp hterm
  have hsub := upd_bodySet_subset W H g.snake g.bodySet (resolveDir g.dir key) g.ateApple
    h₁ rest hsnake
  have hne : (updateSnakePair W H g.snake g.bodySet (resolveDir g.dir key)
      g.ateApple).1.headD (0, 0) ≠ g.apple := by
    intro heq
    rcases Finset.mem_insert.mp (hsub (heq ▸ hmem)) with h | h
    · exact happle₂ h
    · exact happle₁ h
  rw [tick_score, if_neg hne]

/-- Witness for C3's amended statement at the curled length-6 state. -/
theorem c3_terminating_tick_effects_witness :
    (tick 40 20 curledState (some "s") []).1.score = curledState.score ∧
    (tick 40 20 curledState (some "s") []).1.snake =
      (updateSnakePair 40 20 curledState.snake curledState.bodySet
        (resolveDir curledState.dir (some "s")) curledState.ateApple).1 :=
  c3_terminating_tick_effects 40 20 curledState (some "s") [] (10, 9)
    [(11, 9), (11, 10), (10, 10), (9, 10), (8, 10)] rfl (by decide) (by decide) (by decide)

/-- C7: across ticks the score is non-decreasing, and it increases by exactly
1 on a tick whose outcome is Ate and by 0 on every other tick.  The apple
hypotheses are the standing disjointness invariant of the spec's data model
(apple never on a snake cell); without it the C1 placement bug could put the
apple on a body cell and make an eating tick also terminate. -/
theorem c7_score_rule (W H : Int) (g : GameState) (key : Option String) (draws : List Pos)
    (h₁ : Pos) (rest : List Pos) (hsnake : g.snake = h₁ :: rest)
    (happle₁ : g.apple ∉ g.bodySet) (happle₂ : g.apple ≠ h₁) :
    g.score ≤ (tick W H g key draws).1.score ∧
    (tick W H g key draws).1.score =
      g.score + (if (tick W H g key draws).2 = Outcome.Ate then 1 else 0) := by
  have hsub := upd_bodySet_subset W H g.snake g.bodySet (resolveDir g.dir key) g.ateApple
    h₁ rest hsnake
  by_cases hap : (updateSnakePair W H g.snake g.bodySet (resolveDir g.dir key)
      g.ateApple).1.headD (0, 0) = g.apple
  · have hnm : (updateSnakePair W H g.snake g.bodySet (resolveDir g.dir key)
        g.ateApple).1.headD (0, 0) ∉
        (updateSnakePair W H g.snake g.bodySet (resolveDir g.dir key) g.ateApple).2 := by
      intro hm
      rcases Finset.mem_insert.mp (hsub (hap ▸ hm)) with h | h
      · exact happle₂ h
      · exact happle₁ h
    have hAte : (tick W H g key draws).2 = Outcome.Ate :=
      (tick_ate_iff W H g key draws).mpr ⟨hap, hnm⟩
    rw [tick_score, if_pos hap, hAte]
    simp
  · have hnAte : (tick W H g key draws).2 ≠ Outcome.Ate := fun hA =>
      hap ((tick_ate_iff W H g key draws).mp hA).1
    rw [tick_score, if_neg hap, if_neg hnAte]
    simp

/-- Witness for C7 at the initial state with a free apple cell. -/
theorem c7_score_rule_witness :
    (initState (20, 15)).score ≤
      (tick 40 20 (initState (20, 15)) none []).1.score ∧
    (tick 40 20 (initState (20, 15)) none []).1.score =
      (initState (20, 15)).score +
        (if (tick 40 20 (initState (20, 15)) none []).2 = Outcome.Ate then 1 else 0) :=
  c7_score_rule 40 20 (initState (20, 15)) none [] (5, 10) [(4, 10), (3, 10)]
    rfl (by decide) (by decide)

/-- C4: for every reachable loop state, a tick's outcome is Terminated iff
the candidate head (the head of the post-move snake) matches a body cell at
index ≥ 3 from the head-to-be.  The source compares the candidate head
against the whole body set (`snake[1:]` of the post-move snake), but for
reachable states a match at index 1 (the old head) or index 2 (the old neck)
is geometrically impossible — the head always moves to a fresh adjacent cell
and cannot re-enter the neck because reversals are blocked — so the checked
condition coincides with a match at index ≥ 3. -/
theorem c4_terminated_iff_match_from_index3 (g : GameState) (hg : Reachable g)
    (key : Option String) (draws : List Pos) :
    (tick MAP_WIDTH MAP_HEIGHT g key draws).2 = Outcome.Terminated ↔
      (tick MAP_WIDTH MAP_HEIGHT g key draws).1.snake.headD (0, 0) ∈
        (tick MAP_WIDTH MAP_HEIGHT g key draws).1.snake.drop 3 := by
  have hInv := reachable_inv g hg
  obtain ⟨h₁, h₂, t', hhead, hs, hb, hnd, hi1, hi2, hmv⟩ :=
    upd_struct MAP_WIDTH MAP_HEIGHT g key hInv
  obtain ⟨a₁, a₂, at', -, -, -, -, hdir, -, -, -⟩ := hInv
  have hdir' : isDir (resolveDir g.dir key) := resolveDir_isDir g.dir key hdir
  have hnopp : resolveDir g.dir key ≠ opposite g.dir := resolveDir_ne_opposite g.dir key hdir
  have hne1 : move MAP_WIDTH MAP_HEIGHT h₁ (resolveDir g.dir key) ≠ h₁ :=
    move_ne MAP_WIDTH MAP_HEIGHT (by decide) (by decide) _ hdir' h₁ hi1
  have hne2 : move MAP_WIDTH MAP_HEIGHT h₁ (resolveDir g.dir key) ≠ h₂ :=
    hmv.symm ▸ move_move_ne MAP_WIDTH MAP_HEIGHT (by decide) (by decide) g.dir
      (resolveDir g.dir key) hdir hdir' hnopp h₂ hi2
  rw [tick_terminated_iff, tick_snake, hs, hb]
  simp only [List.headD_cons, List.mem_toFinset, List.drop_succ_cons, List.drop_zero,
    List.mem_cons]
  constructor
  · rintro (h | h | h)
    · exact absurd h hne1
    · exact absurd h hne2
    · exact h
  · exact fun h => Or.inr (Or.inr h)

/-- Witness for C4 at the initial state: the first tick does not terminate
and its candidate head matches no body cell at index ≥ 3. -/
theorem c4_terminated_iff_match_from_index3_witness :
    (tick MAP_WIDTH MAP_HEIGHT (initState (20, 15)) none []).2 ≠ Outcome.Terminated := by
  intro hterm
  have hmem :=
    (c4_terminated_iff_match_from_index3 (initState (20, 15)) (Reachable.init (20, 15))
      none []).mp hterm
  revert hmem
  decide

end Snake
